import Mathlib

/-!
Shallow embedding of the client-side synchronization layer of the
voice-ai-client repository: the stock resource hook (useStock), the freezer
resource hook (useFreezer), the todo table undo logic, the stock table undo
stack and add-input parsing, and the REST proxy error translation of the
memories and freezer routes.

Pure state transitions of the hooks are embedded as functions over explicit
collection/state values; asynchronous fetch outcomes are passed in as explicit
outcome values; the JSON.parse of an SSE payload is embedded as an Option
parse result, where none is the catch branch of the handler's try/catch.
-/

/-! ## Data model: stock (src/src/app/hooks/useStock.ts) -/

/-- The StockLevel union type of useStock.ts. -/
inductive StockLevel
  | out_of_stock
  | running_low
  | sufficient
deriving DecidableEq, Repr

/-- The Stock record interface of useStock.ts. -/
structure Stock where
  id : String
  item : String
  quantity : String
  stock_level : StockLevel
  timestamp : String
deriving DecidableEq, Repr

/-- A parsed JSON object that is spread over a Stock record with the
JavaScript spread {...s, ...data}: each field is present (some) or absent
(none). A present field overwrites, an absent field leaves the record's
field. -/
structure StockPatch where
  id : Option String
  item : Option String
  quantity : Option String
  stock_level : Option StockLevel
  timestamp : Option String
deriving DecidableEq, Repr

/-- The JavaScript shallow merge of a parsed object over a Stock record,
as performed by the spread in the stock_updated handler and updateStock. -/
def mergeStock (s : Stock) (p : StockPatch) : Stock where
  id := p.id.getD s.id
  item := p.item.getD s.item
  quantity := p.quantity.getD s.quantity
  stock_level := p.stock_level.getD s.stock_level
  timestamp := p.timestamp.getD s.timestamp

/-- Body of the stock_created SSE handler (useStock.ts lines 67-80): add the
payload only when no record with its id is already present. -/
def applyStockCreated (prev : List Stock) (data : Stock) : List Stock :=
  if prev.any (fun s => s.id == data.id) then prev else prev ++ [data]

/-- Body of the stock_updated SSE handler (useStock.ts lines 82-91): shallow
merge the payload into the record whose id equals the payload's id. A payload
without an id matches no record (undefined never equals a string id). -/
def applyStockUpdated (prev : List Stock) (data : StockPatch) : List Stock :=
  prev.map (fun s => if some s.id == data.id then mergeStock s data else s)

/-- Body of the stock_deleted SSE handler (useStock.ts lines 93-100): drop the
record whose id equals the payload's id. -/
def applyStockDeleted (prev : List Stock) (data : StockPatch) : List Stock :=
  prev.filter (fun s => !(some s.id == data.id))

/-- The stock_created handler including its try/catch: a payload that fails to
parse (none) is dropped and the collection is unchanged. -/
def stockCreatedHandler (prev : List Stock) (parsed : Option Stock) : List Stock :=
  match parsed with
  | none => prev
  | some data => applyStockCreated prev data

/-- The stock_updated handler including its try/catch. -/
def stockUpdatedHandler (prev : List Stock) (parsed : Option StockPatch) : List Stock :=
  match parsed with
  | none => prev
  | some data => applyStockUpdated prev data

/-- The stock_deleted handler including its try/catch. -/
def stockDeletedHandler (prev : List Stock) (parsed : Option StockPatch) : List Stock :=
  match parsed with
  | none => prev
  | some data => applyStockDeleted prev data

/-- Local collection effect of createStock (useStock.ts lines 107-126): the
function only issues the POST and does not touch the collection; the SSE
stock_created event is relied upon to add the record. -/
def createStockLocal (prev : List Stock) : List Stock := prev

/-- Local collection effect of a successful updateStock (useStock.ts lines
129-152): the confirmed response object is shallow merged into the record
whose id equals the argument id. -/
def updateStockLocal (prev : List Stock) (i : String) (updatedStock : StockPatch) :
    List Stock :=
  prev.map (fun s => if s.id == i then mergeStock s updatedStock else s)

/-- Local collection effect of a successful deleteStock (useStock.ts lines
155-170): remove the record with the argument id immediately. -/
def deleteStockLocal (prev : List Stock) (i : String) : List Stock :=
  prev.filter (fun s => !(s.id == i))

/-! ## Stock fetch state (useStock.ts fetchStock, lines 32-51) -/

/-- Collection plus the loading and error flags of useStock. -/
structure StockState where
  stock : List Stock
  isLoading : Bool
  error : Option String
deriving DecidableEq, Repr

/-- Shape of a successfully parsed fetch response body: either a JSON array of
records, or an object whose stock property may be absent. -/
inductive StockFetchData
  | arr (l : List Stock)
  | obj (stockField : Option (List Stock))
deriving DecidableEq, Repr

/-- The extraction Array.isArray(data) ? data : (data.stock or []) of
fetchStock. -/
def extractStockList : StockFetchData → List Stock
  | .arr l => l
  | .obj o => o.getD []

/-- Outcome of the fetch call inside fetchStock: the fetch promise rejects,
the response status is not ok (both throw into the catch), or the body parses
to data. -/
inductive StockFetchOutcome
  | netError
  | badStatus
  | ok (d : StockFetchData)
deriving DecidableEq, Repr

/-- Final state of one full fetchStock call (useStock.ts lines 32-51): the
catch branch sets the error message and leaves the collection untouched, the
success branch replaces the collection; the finally branch clears isLoading
in every case. -/
def fetchStock (st : StockState) : StockFetchOutcome → StockState
  | .netError => { stock := st.stock, isLoading := false, error := some "Failed to load stock" }
  | .badStatus => { stock := st.stock, isLoading := false, error := some "Failed to load stock" }
  | .ok d => { stock := extractStockList d, isLoading := false, error := none }

/-! ## Data model: freezer (src/unnamed/part_000, useFreezer) -/

/-- The FreezerItem interface of useFreezer. The identity key is code. -/
structure FreezerItem where
  code : String
  description : String
  added_at : String
deriving DecidableEq, Repr

/-- A parsed JSON object spread over a FreezerItem record. -/
structure FreezerPatch where
  code : Option String
  description : Option String
  added_at : Option String
deriving DecidableEq, Repr

/-- JavaScript shallow merge of a parsed object over a FreezerItem. -/
def mergeFreezer (it : FreezerItem) (p : FreezerPatch) : FreezerItem where
  code := p.code.getD it.code
  description := p.description.getD it.description
  added_at := p.added_at.getD it.added_at

/-- Body of the freezer_item_created SSE handler (part_000 lines 69-82): add
the payload only when no item with its code is already present. -/
def applyFreezerCreated (prev : List FreezerItem) (data : FreezerItem) : List FreezerItem :=
  if prev.any (fun it => it.code == data.code) then prev else prev ++ [data]

/-- Body of the freezer_item_updated SSE handler (part_000 lines 84-93). -/
def applyFreezerUpdated (prev : List FreezerItem) (data : FreezerPatch) : List FreezerItem :=
  prev.map (fun it => if some it.code == data.code then mergeFreezer it data else it)

/-- Body of the freezer_item_deleted SSE handler (part_000 lines 95-102). -/
def applyFreezerDeleted (prev : List FreezerItem) (data : FreezerPatch) : List FreezerItem :=
  prev.filter (fun it => !(some it.code == data.code))

/-- The freezer_item_created handler including its try/catch. -/
def freezerCreatedHandler (prev : List FreezerItem) (parsed : Option FreezerItem) :
    List FreezerItem :=
  match parsed with
  | none => prev
  | some data => applyFreezerCreated prev data

/-- The freezer_item_updated handler including its try/catch. -/
def freezerUpdatedHandler (prev : List FreezerItem) (parsed : Option FreezerPatch) :
    List FreezerItem :=
  match parsed with
  | none => prev
  | some data => applyFreezerUpdated prev data

/-- The freezer_item_deleted handler including its try/catch. -/
def freezerDeletedHandler (prev : List FreezerItem) (parsed : Option FreezerPatch) :
    List FreezerItem :=
  match parsed with
  | none => prev
  | some data => applyFreezerDeleted prev data

/-! ## Freezer single-slot undo (part_000, undoDelete lines 179-189) -/

/-- The DeletedItem slot of useFreezer: the deleted record and the local time
of the deletion. -/
structure DeletedItem where
  item : FreezerItem
  timestamp : Nat
deriving DecidableEq, Repr

/-- The JSON body of the POST /api/freezer issued by createItem (part_000
lines 121-135): JSON.stringify of code and description. -/
structure FreezerCreateBody where
  code : String
  description : String
deriving DecidableEq, Repr

/-- undoDelete of useFreezer (part_000 lines 179-189): no-op when the slot is
empty; otherwise issue createItem with the deleted item's code and
description, and clear the slot only when that call succeeds (a failure
rethrows before setLastDeleted(null)). Returns the issued create body, if
any, and the new slot. -/
def undoDelete (lastDeleted : Option DeletedItem) (success : Bool) :
    Option FreezerCreateBody × Option DeletedItem :=
  match lastDeleted with
  | none => (none, none)
  | some d =>
    (some { code := d.item.code, description := d.item.description },
     if success then none else some d)

/-! ## Data model: todos (src/unnamed/part_014, TodoTable) -/

/-- The TodoItem interface of TodoTable. -/
structure TodoItem where
  id : String
  content : String
  completed : Bool
  created_at : String
  completed_at : Option String
deriving DecidableEq, Repr

/-- The DeletedTodo slot of TodoTable. -/
structure DeletedTodo where
  item : TodoItem
  timestamp : Nat
deriving DecidableEq, Repr

/-- The JSON body of the POST /api/todos issued by the todo undo (part_014
lines 183-187): JSON.stringify of the content field only. -/
structure TodoCreateBody where
  content : String
deriving DecidableEq, Repr

/-- handleUndo of TodoTable (part_014 lines 178-200): no-op when the slot is
empty or an undo is in flight; otherwise POST a create body holding only the
deleted todo's content, and clear the slot only on success (the catch branch
leaves lastDeleted as it was). Returns the issued create body, if any, and
the new slot. -/
def todoHandleUndo (lastDeleted : Option DeletedTodo) (isUndoing : Bool) (success : Bool) :
    Option TodoCreateBody × Option DeletedTodo :=
  if isUndoing then (none, lastDeleted)
  else
    match lastDeleted with
    | none => (none, none)
    | some d =>
      (some { content := d.item.content }, if success then none else some d)

/-! ## Stock table undo stack (part_014, StockTable lines 381-487) -/

/-- The editable field names of a stock row. -/
inductive StockField
  | item
  | quantity
  | stock_level
deriving DecidableEq, Repr

/-- The UndoOperation union of StockTable (part_014 lines 382-385). -/
inductive UndoOperation
  | del (stock : Stock)
  | add (stockId : String)
  | edit (stockId : String) (field : StockField) (oldValue : String) (newValue : String)
deriving DecidableEq, Repr

/-- A backend request issued by handleUndo's switch: re-create a deleted
record, delete an added record, or update a field back to its old value (the
old value is kept as the raw string the component recorded, exactly as the
source casts it). -/
inductive StockRequest
  | addStockReq (item : String) (quantity : String) (level : StockLevel)
  | deleteStockReq (stockId : String)
  | updateStockReq (stockId : String) (field : StockField) (value : String)
deriving DecidableEq, Repr

/-- The inverse backend operation handleUndo issues for an undo entry
(part_014 lines 466-480). -/
def undoRequest : UndoOperation → StockRequest
  | .del s => .addStockReq s.item s.quantity s.stock_level
  | .add i => .deleteStockReq i
  | .edit i f old _ => .updateStockReq i f old

/-- pushUndo of StockTable (part_014 lines 455-457): append on top. -/
def pushUndo (stack : List UndoOperation) (op : UndoOperation) : List UndoOperation :=
  stack ++ [op]

/-- handleUndo of StockTable (part_014 lines 459-487): no-op when the stack is
empty or an undo is in flight; otherwise issue the inverse of the top (last)
entry and pop it only when the inverse operation succeeds (the catch branch
leaves the stack as it was). Returns the issued request, if any, and the new
stack. -/
def handleUndo (stack : List UndoOperation) (isUndoing : Bool) (success : Bool) :
    Option StockRequest × List UndoOperation :=
  if isUndoing then (none, stack)
  else
    match stack.getLast? with
    | none => (none, stack)
    | some op => (some (undoRequest op), if success then stack.dropLast else stack)

/-! ## Stock add-input parsing and level codes (part_014, StockTable) -/

/-- JavaScript input.split to pieces at each slash character, keeping empty
pieces, as String.prototype.split("/") does. -/
def splitSlashAux : List Char → List Char → List String
  | [], acc => [String.mk acc.reverse]
  | c :: cs, acc =>
    if c = '/' then String.mk acc.reverse :: splitSlashAux cs []
    else splitSlashAux cs (c :: acc)

/-- input.split("/") of parseStockInput. -/
def splitSlash (s : String) : List String := splitSlashAux s.toList []

/-- String.prototype.trim: strip whitespace from both ends (the inputs at
hand only carry ASCII whitespace). -/
def jsTrim (s : String) : String :=
  String.mk (((s.toList.dropWhile Char.isWhitespace).reverse.dropWhile
    Char.isWhitespace).reverse)

/-- Result record of parseStockInput. -/
structure ParsedStock where
  item : String
  quantity : String
  stockLevel : StockLevel
deriving DecidableEq, Repr

/-- The body of parseStockInput after parts is computed (part_014 lines
493-518): require exactly three parts (the JavaScript destructuring after the
length check), reject when any part is falsy (empty), and map the level code
through the + / - / 0 switch whose default returns null. -/
def parseStockParts (parts : List String) : Option ParsedStock :=
  match parts with
  | [item, quantity, levelCode] =>
    if item = "" ∨ quantity = "" ∨ levelCode = "" then none
    else
      if levelCode = "+" then some { item := item, quantity := quantity, stockLevel := .sufficient }
      else if levelCode = "-" then some { item := item, quantity := quantity, stockLevel := .running_low }
      else if levelCode = "0" then some { item := item, quantity := quantity, stockLevel := .out_of_stock }
      else none
  | _ => none

/-- parseStockInput of StockTable (part_014 lines 489-519): split on slashes,
trim each part, then apply the checks above. -/
def parseStockInput (input : String) : Option ParsedStock :=
  parseStockParts ((splitSlash input).map jsTrim)

/-- The rejection condition of claim C8 over an already split-and-trimmed
parts list: not exactly three parts, some part empty, or the third part not
one of the three level codes. -/
def badStockParts (parts : List String) : Bool :=
  parts.length != 3 || parts.any (fun p => p = "") ||
    !(["+", "-", "0"].contains (parts.getD 2 ""))

/-- The rejection condition of claim C8 on a raw input string. -/
def badStockInput (s : String) : Bool :=
  badStockParts ((splitSlash s).map jsTrim)

/-- The stock_level to display-code conversion of startEditing (part_014
lines 581-595). The source's default branch is unreachable for a well-typed
StockLevel. -/
def levelToCode : StockLevel → String
  | .sufficient => "+"
  | .running_low => "-"
  | .out_of_stock => "0"

/-- The display-code to stock_level switch of saveEditing (part_014 lines
624-638); its default branch cancels the edit, embedded as none. -/
def codeToLevel (c : String) : Option StockLevel :=
  if c = "+" then some .sufficient
  else if c = "-" then some .running_low
  else if c = "0" then some .out_of_stock
  else none

/-! ## REST proxy error translation (src/src/app/api/memories/route.ts POST,
src/unnamed/part_004 freezer POST) -/

/-- A backend HTTP response as the proxies observe it: the status code, the
error field of the parsed JSON body when present, and the raw success
payload. -/
structure BackendResponse where
  status : Nat
  errorMsg : Option String
  payload : String
deriving DecidableEq, Repr

/-- response.ok of the fetch API: status in the range 200-299. -/
def respOk (r : BackendResponse) : Bool :=
  200 ≤ r.status && r.status < 300

/-- Body of a proxy response: a JSON error object or the forwarded backend
payload. -/
inductive ProxyBody
  | errJson (msg : String)
  | passthrough (payload : String)
deriving DecidableEq, Repr

/-- A proxy route response: status code and body. -/
structure ProxyResponse where
  status : Nat
  body : ProxyBody
deriving DecidableEq, Repr

/-- POST of the memories proxy route (src/src/app/api/memories/route.ts lines
31-58) as a function of the backend outcome; none is a fetch that throws
(backend unreachable). A non-ok backend status is forwarded with the fixed
message "Failed to create memory". -/
def memoriesPost (outcome : Option BackendResponse) : ProxyResponse :=
  match outcome with
  | none => { status := 503, body := .errJson "Failed to connect to server" }
  | some r =>
    if respOk r then { status := 200, body := .passthrough r.payload }
    else { status := r.status, body := .errJson "Failed to create memory" }

/-- POST of the freezer proxy route (src/unnamed/part_004 lines 36-64) as a
function of the backend outcome. A non-ok backend status is forwarded with
the backend body's error field, falling back to a fixed message when the
field is absent. -/
def freezerPost (outcome : Option BackendResponse) : ProxyResponse :=
  match outcome with
  | none => { status := 503, body := .errJson "Failed to connect to server" }
  | some r =>
    if respOk r then { status := 201, body := .passthrough r.payload }
    else { status := r.status, body := .errJson (r.errorMsg.getD "Failed to create freezer item") }

/-! ## Helper lemmas -/

/-- In a list whose keys are pairwise distinct, a key that occurs occurs in
exactly one element. -/
theorem countP_key_eq_one {α : Type} (key : α → String) (l : List α) (k : String)
    (hn : (l.map key).Nodup) (hm : ∃ s ∈ l, key s = k) :
    l.countP (fun s => key s == k) = 1 := by
  induction l with
  | nil => simp at hm
  | cons a t ih =>
    simp only [List.map_cons, List.nodup_cons] at hn
    rw [List.countP_cons]
    by_cases ha : key a = k
    · have ht : t.countP (fun s => key s == k) = 0 := by
        rw [List.countP_eq_zero]
        intro s hs
        simp only [beq_iff_eq]
        intro hsk
        exact hn.1 (ha ▸ hsk ▸ List.mem_map_of_mem key hs)
      simp [ht, ha]
    · obtain ⟨s, hs, hsk⟩ := hm
      rcases List.mem_cons.mp hs with hsa | hst
      · exact absurd (hsa ▸ hsk) ha
      · have := ih hn.2 ⟨s, hst, hsk⟩
        simp [ha, this]

/-- A list none of whose elements has key k has countP zero for k. -/
theorem countP_key_eq_zero {α : Type} (key : α → String) (l : List α) (k : String)
    (hm : l.all (fun s => !(key s == k)) = true) :
    l.countP (fun s => key s == k) = 0 := by
  rw [List.countP_eq_zero]
  intro s hs
  have := List.all_eq_true.mp hm s hs
  simpa using this

/-! ## Claim theorems -/

/-- C1: for a collection satisfying the key-uniqueness invariant, a successful
create call (which does not mutate the collection locally) and the arrival of
the corresponding created push event commute, and the final collection
contains exactly one record with the event's key; the created-event handler
inserts nothing when the key is already present. Stated for the stock hook
and the freezer hook. -/
theorem created_event_dedup (l : List Stock) (d : Stock)
    (fl : List FreezerItem) (fd : FreezerItem)
    (hs : (l.map (fun s => s.id)).Nodup)
    (hf : (fl.map (fun it => it.code)).Nodup) :
    applyStockCreated (createStockLocal l) d = createStockLocal (applyStockCreated l d) ∧
    (applyStockCreated l d).countP (fun s => s.id == d.id) = 1 ∧
    ((∃ s ∈ l, s.id = d.id) → applyStockCreated l d = l) ∧
    (applyFreezerCreated fl fd).countP (fun it => it.code == fd.code) = 1 ∧
    ((∃ it ∈ fl, it.code = fd.code) → applyFreezerCreated fl fd = fl) := by
  refine ⟨rfl, ?_, ?_, ?_, ?_⟩
  · unfold applyStockCreated
    by_cases h : l.any (fun s => s.id == d.id) = true
    · rw [if_pos h]
      refine countP_key_eq_one (fun s => s.id) l d.id hs ?_
      obtain ⟨s, hs', hd⟩ := List.any_eq_true.mp h
      exact ⟨s, hs', by simpa using hd⟩
    · rw [if_neg h, List.countP_append]
      have h0 : l.countP (fun s => s.id == d.id) = 0 := by
        rw [List.countP_eq_zero]
        intro s hs'
        have := List.any_eq_false.mp (Bool.eq_false_iff.mpr h) s hs'
        simpa using this
      simp [h0]
  · intro ⟨s, hs', hd⟩
    unfold applyStockCreated
    rw [if_pos (List.any_eq_true.mpr ⟨s, hs', by simpa using hd⟩)]
  · unfold applyFreezerCreated
    by_cases h : fl.any (fun it => it.code == fd.code) = true
    · rw [if_pos h]
      refine countP_key_eq_one (fun it => it.code) fl fd.code hf ?_
      obtain ⟨it, hi, hd⟩ := List.any_eq_true.mp h
      exact ⟨it, hi, by simpa using hd⟩
    · rw [if_neg h, List.countP_append]
      have h0 : fl.countP (fun it => it.code == fd.code) = 0 := by
        rw [List.countP_eq_zero]
        intro it hi
        have := List.any_eq_false.mp (Bool.eq_false_iff.mpr h) it hi
        simpa using this
      simp [h0]
  · intro ⟨it, hi, hd⟩
    unfold applyFreezerCreated
    rw [if_pos (List.any_eq_true.mpr ⟨it, hi, by simpa using hd⟩)]

/-- C1 witness: the theorem applied at a singleton stock collection, a fresh
stock record, the empty freezer collection and a freezer item. -/
theorem created_event_dedup_witness :
    (([⟨"1", "milk", "2 gallons", .sufficient, "t0"⟩] : List Stock).map
        (fun s => s.id)).Nodup ∧
    (([] : List FreezerItem).map (fun it => it.code)).Nodup ∧
    (applyStockCreated (createStockLocal [⟨"1", "milk", "2 gallons", .sufficient, "t0"⟩])
        ⟨"2", "eggs", "6", .running_low, "t1"⟩ =
      createStockLocal (applyStockCreated [⟨"1", "milk", "2 gallons", .sufficient, "t0"⟩]
        ⟨"2", "eggs", "6", .running_low, "t1"⟩) ∧
    (applyStockCreated [⟨"1", "milk", "2 gallons", .sufficient, "t0"⟩]
        ⟨"2", "eggs", "6", .running_low, "t1"⟩).countP (fun s => s.id == "2") = 1 ∧
    ((∃ s ∈ ([⟨"1", "milk", "2 gallons", .sufficient, "t0"⟩] : List Stock), s.id = "2") →
      applyStockCreated [⟨"1", "milk", "2 gallons", .sufficient, "t0"⟩]
        ⟨"2", "eggs", "6", .running_low, "t1"⟩ =
        [⟨"1", "milk", "2 gallons", .sufficient, "t0"⟩]) ∧
    (applyFreezerCreated [] ⟨"ABC", "beef stew", "t2"⟩).countP
        (fun it => it.code == "ABC") = 1 ∧
    ((∃ it ∈ ([] : List FreezerItem), it.code = "ABC") →
      applyFreezerCreated [] ⟨"ABC", "beef stew", "t2"⟩ = [])) :=
  ⟨by decide, by decide,
    created_event_dedup [⟨"1", "milk", "2 gallons", .sufficient, "t0"⟩]
      ⟨"2", "eggs", "6", .running_low, "t1"⟩ [] ⟨"ABC", "beef stew", "t2"⟩
      (by decide) (by decide)⟩

/-- C2: a local delete removes the record immediately; a later deleted push
event for the same key leaves the collection unchanged, and the deleted-event
handler is idempotent. -/
theorem delete_then_event_noop (l : List Stock) (i : String) :
    (∀ s ∈ deleteStockLocal l i, s.id ≠ i) ∧
    applyStockDeleted (deleteStockLocal l i) ⟨some i, none, none, none, none⟩ =
      deleteStockLocal l i ∧
    applyStockDeleted (applyStockDeleted l ⟨some i, none, none, none, none⟩)
        ⟨some i, none, none, none, none⟩ =
      applyStockDeleted l ⟨some i, none, none, none, none⟩ := by
  refine ⟨?_, ?_, ?_⟩
  · intro s hs
    have := List.of_mem_filter hs
    simpa using this
  · unfold applyStockDeleted deleteStockLocal
    rw [List.filter_filter]
    refine List.filter_congr ?_
    intro s _
    simp
  · unfold applyStockDeleted
    rw [List.filter_filter]
    refine List.filter_congr ?_
    intro s _
    simp

/-- C3: when the confirmed response (or event payload) carries only the
updated field, updateStock and the updated-event handler change exactly that
field of the record with the targeted id and leave every other field and
every other record unchanged. Stated for each updatable field of the update
request, and for the event handler whose payload carries its id and the
updated field. -/
theorem update_shallow_merge_frame (l : List Stock) (key v : String) (lv : StockLevel) :
    updateStockLocal l key ⟨none, some v, none, none, none⟩ =
      l.map (fun s => if s.id = key then { s with item := v } else s) ∧
    updateStockLocal l key ⟨none, none, some v, none, none⟩ =
      l.map (fun s => if s.id = key then { s with quantity := v } else s) ∧
    updateStockLocal l key ⟨none, none, none, some lv, none⟩ =
      l.map (fun s => if s.id = key then { s with stock_level := lv } else s) ∧
    applyStockUpdated l ⟨some key, some v, none, none, none⟩ =
      l.map (fun s => if s.id = key then { s with item := v } else s) := by
  refine ⟨?_, ?_, ?_, ?_⟩
  · have h : ∀ s : Stock,
        (if s.id == key then mergeStock s ⟨none, some v, none, none, none⟩ else s) =
          (if s.id = key then { s with item := v } else s) := by
      intro s
      by_cases hk : s.id = key <;> simp [hk, mergeStock]
    simp only [updateStockLocal, h]
  · have h : ∀ s : Stock,
        (if s.id == key then mergeStock s ⟨none, none, some v, none, none⟩ else s) =
          (if s.id = key then { s with quantity := v } else s) := by
      intro s
      by_cases hk : s.id = key <;> simp [hk, mergeStock]
    simp only [updateStockLocal, h]
  · have h : ∀ s : Stock,
        (if s.id == key then mergeStock s ⟨none, none, none, some lv, none⟩ else s) =
          (if s.id = key then { s with stock_level := lv } else s) := by
      intro s
      by_cases hk : s.id = key <;> simp [hk, mergeStock]
    simp only [updateStockLocal, h]
  · have h : ∀ s : Stock,
        (if some s.id == some key then mergeStock s ⟨some key, some v, none, none, none⟩ else s) =
          (if s.id = key then { s with item := v } else s) := by
      intro s
      by_cases hk : s.id = key <;> simp [hk, mergeStock]
    simp only [applyStockUpdated, h]

/-- C4: an SSE payload that fails to parse is dropped by every handler of the
stock and freezer stores without changing the collection. -/
theorem malformed_event_dropped (l : List Stock) (fl : List FreezerItem) :
    stockCreatedHandler l none = l ∧
    stockUpdatedHandler l none = l ∧
    stockDeletedHandler l none = l ∧
    freezerCreatedHandler fl none = fl ∧
    freezerUpdatedHandler fl none = fl ∧
    freezerDeletedHandler fl none = fl :=
  ⟨rfl, rfl, rfl, rfl, rfl, rfl⟩

/-- C5: a failing load (network error or bad status) keeps the previous
collection, sets the error flag and clears the loading flag; a successful
load replaces the collection entirely, clears the error and the loading
flag. -/
theorem fetch_failure_keeps_state (st : StockState) (d : StockFetchData) :
    (fetchStock st .netError).stock = st.stock ∧
    (fetchStock st .netError).error = some "Failed to load stock" ∧
    (fetchStock st .netError).isLoading = false ∧
    (fetchStock st .badStatus).stock = st.stock ∧
    (fetchStock st .badStatus).error = some "Failed to load stock" ∧
    (fetchStock st .badStatus).isLoading = false ∧
    (fetchStock st (.ok d)).stock = extractStockList d ∧
    (fetchStock st (.ok d)).error = none ∧
    (fetchStock st (.ok d)).isLoading = false :=
  ⟨rfl, rfl, rfl, rfl, rfl, rfl, rfl, rfl, rfl⟩

/-- C6: the undo stack is strictly LIFO: after pushing A then B, an undo
attempt issues the inverse of B; on success only B is popped (A remains), on
failure the stack is unchanged; an undo while one is in flight, or on an
empty stack, issues nothing and changes nothing. -/
theorem undo_stack_lifo (st : List UndoOperation) (a b : UndoOperation) (success : Bool) :
    handleUndo (pushUndo (pushUndo st a) b) false true =
      (some (undoRequest b), pushUndo st a) ∧
    handleUndo (pushUndo (pushUndo st a) b) false false =
      (some (undoRequest b), pushUndo (pushUndo st a) b) ∧
    handleUndo st true success = (none, st) ∧
    handleUndo [] false success = (none, []) := by
  unfold handleUndo pushUndo
  refine ⟨?_, ?_, ?_, ?_⟩
  · simp [List.getLast?_concat, List.dropLast_concat]
  · simp [List.getLast?_concat]
  · simp
  · simp

/-- C7 counterexample: the todo undo issues a create request carrying only
the content, so no recreation can restore the user-visible completed flag:
two deleted todos that differ only in completed produce the same request. -/
theorem todo_undo_drops_completed :
    ¬ ∃ restore : TodoCreateBody → Bool,
        ∀ d : DeletedTodo,
          ((todoHandleUndo (some d) false true).fst.map restore) =
            some d.item.completed := by
  rintro ⟨restore, h⟩
  have h1 := h ⟨⟨"t1", "buy milk", true, "2024-01-01", none⟩, 0⟩
  have h2 := h ⟨⟨"t2", "buy milk", false, "2024-01-01", none⟩, 0⟩
  simp [todoHandleUndo] at h1 h2
  rw [h1] at h2
  exact Bool.noConfusion h2

/-- C7 amended: undo of a delete issues a create request carrying, for the
freezer, the deleted item's code and description (its user-entered
attributes; added_at is backend-assigned) and, for todos, only the deleted
todo's content (completed and the timestamps are not restored); in both
cases the undo slot is cleared only when the request succeeds. -/
theorem undo_recreate_request (d : DeletedItem) (t : DeletedTodo) (b : Bool) :
    (undoDelete (some d) b).fst =
      some { code := d.item.code, description := d.item.description } ∧
    (undoDelete (some d) true).snd = none ∧
    (undoDelete (some d) false).snd = some d ∧
    (undoDelete none b) = (none, none) ∧
    (todoHandleUndo (some t) false b).fst = some { content := t.item.content } ∧
    (todoHandleUndo (some t) false true).snd = none ∧
    (todoHandleUndo (some t) false false).snd = some t ∧
    (todoHandleUndo (some t) true b) = (none, some t) := by
  refine ⟨rfl, rfl, rfl, rfl, ?_, ?_, ?_, ?_⟩ <;> simp [todoHandleUndo]

/-- C8: the stock add-input parser maps "milk / 2 gallons / +" to milk, 2
gallons, sufficient and "eggs / 0 / 0" to out_of_stock; every input that
does not split-and-trim into exactly three non-empty parts whose third is
one of +, -, 0 is rejected with null. -/
theorem parse_stock_input_spec :
    parseStockInput "milk / 2 gallons / +" =
      some { item := "milk", quantity := "2 gallons", stockLevel := .sufficient } ∧
    parseStockInput "eggs / 0 / 0" =
      some { item := "eggs", quantity := "0", stockLevel := .out_of_stock } ∧
    ∀ s : String, badStockInput s = true → parseStockInput s = none := by
  refine ⟨by decide, by decide, ?_⟩
  intro s h
  unfold badStockInput at h
  unfold parseStockInput
  generalize (splitSlash s).map jsTrim = parts at h ⊢
  match parts with
  | [] => rfl
  | [_] => rfl
  | [_, _] => rfl
  | _ :: _ :: _ :: _ :: _ => rfl
  | [item, quantity, levelCode] =>
    simp [badStockParts] at h
    unfold parseStockParts
    rcases h with he | hc
    · simp [he]
    · by_cases he2 : item = "" ∨ quantity = "" ∨ levelCode = ""
      · simp [he2]
      · simp [he2, hc.1, hc.2.1, hc.2.2]

/-- C8 witness: the rejection branch applied to a one-part input. -/
theorem parse_stock_input_spec_witness :
    badStockInput "milk" = true ∧ parseStockInput "milk" = none :=
  ⟨by decide, parse_stock_input_spec.2.2 "milk" (by decide)⟩

/-- C9 counterexample: the memories proxy forwards the backend's 422 status
but replaces the backend-reported message by the fixed string "Failed to
create memory" instead of passing it through. -/
theorem memories_proxy_replaces_message :
    (memoriesPost (some ⟨422, some "Memory already exists", ""⟩)).status = 422 ∧
    (memoriesPost (some ⟨422, some "Memory already exists", ""⟩)).body =
      .errJson "Failed to create memory" ∧
    ProxyBody.errJson "Failed to create memory" ≠
      ProxyBody.errJson "Memory already exists" := by
  refine ⟨by decide, by decide, by decide⟩

/-- C9 amended: when the backend is unreachable both proxies return 503 with
an error-object body, and when the backend responds with a non-ok status both
proxies forward the original status code with an error-object body; the
freezer route passes the backend-reported message through, while the memories
route substitutes a fixed generic message. -/
theorem proxy_error_translation (r : BackendResponse) (h : respOk r = false) :
    memoriesPost none = { status := 503, body := .errJson "Failed to connect to server" } ∧
    freezerPost none = { status := 503, body := .errJson "Failed to connect to server" } ∧
    (memoriesPost (some r)).status = r.status ∧
    (memoriesPost (some r)).body = .errJson "Failed to create memory" ∧
    (freezerPost (some r)).status = r.status ∧
    (freezerPost (some r)).body =
      .errJson (r.errorMsg.getD "Failed to create freezer item") := by
  refine ⟨rfl, rfl, ?_, ?_, ?_, ?_⟩ <;> simp [memoriesPost, freezerPost, h]

/-- C9 witness: the amended theorem at a concrete backend 500 response. -/
theorem proxy_error_translation_witness :
    respOk ⟨500, some "boom", "x"⟩ = false ∧
    (memoriesPost none = { status := 503, body := .errJson "Failed to connect to server" } ∧
    freezerPost none = { status := 503, body := .errJson "Failed to connect to server" } ∧
    (memoriesPost (some ⟨500, some "boom", "x"⟩)).status = 500 ∧
    (memoriesPost (some ⟨500, some "boom", "x"⟩)).body = .errJson "Failed to create memory" ∧
    (freezerPost (some ⟨500, some "boom", "x"⟩)).status = 500 ∧
    (freezerPost (some ⟨500, some "boom", "x"⟩)).body =
      .errJson ((some "boom").getD "Failed to create freezer item")) :=
  ⟨by decide, proxy_error_translation ⟨500, some "boom", "x"⟩ (by decide)⟩

/-- C10: the stock-level display codes round-trip: converting each stock
level to its edit code and back yields the level, and converting each of the
three codes to a level and back yields the code. -/
theorem stock_level_code_round_trip :
    (∀ l : StockLevel, codeToLevel (levelToCode l) = some l) ∧
    (codeToLevel "+").map levelToCode = some "+" ∧
    (codeToLevel "-").map levelToCode = some "-" ∧
    (codeToLevel "0").map levelToCode = some "0" := by
  refine ⟨fun l => ?_, by decide, by decide, by decide⟩
  cases l <;> decide
